import Mathlib

/-!
Shallow embedding of the GIF header decoder (src/src/main.rs) and proofs
about its specification claims.

Bytes are modelled as `Nat` values below 256; `u8`/`u16` wrap-around
arithmetic is made explicit with `% 256` / `% 65536`. Rust panics
(index out of bounds, `unwrap` on `Err`) are modelled as an explicit
`panicked` outcome. An in-memory byte source stands for the `File`:
`read` into a zero-initialized buffer of length `k` copies
`min(k, available)` bytes, leaves the rest of the buffer zero, never
fails, and advances the source.
-/

namespace GifDecoder

/-- Wrap-around of Rust `u8` arithmetic. -/
def u8 (n : Nat) : Nat := n % 256

/-- Wrap-around of Rust `u16` arithmetic. -/
def u16 (n : Nat) : Nat := n % 65536

/-- `struct Color` of src/src/main.rs: three 8-bit channels. -/
structure Color where
  red : Nat
  green : Nat
  blue : Nat
deriving DecidableEq

/-- `enum GifVersion` of src/src/main.rs. -/
inductive GifVersion where
  | V87a
  | V89a
deriving DecidableEq

/-- `enum GifError` of src/src/main.rs. `Io` carries an `io::Error` in the
source; the payload is irrelevant to the claims and dropped here.
`UnsupportedVersion` carries the offending 3-byte version text; the source
stores it as a `String`, which for the byte slices at hand is in bijection
with the byte list carried here. -/
inductive GifError where
  | Io
  | InvalidGifFile
  | UnsupportedVersion (text : List Nat)
deriving DecidableEq

/-- `struct LogicalScreenDescriptor` of src/src/main.rs. -/
structure LogicalScreenDescriptor where
  width : Nat
  height : Nat
  has_global_color_table : Bool
  color_resolution : Nat
  is_global_color_table_sorted : Bool
  background_color_index : Option Nat
  global_color_table_size : Nat
  pixel_aspect_ratio : Nat
deriving DecidableEq

/-- `struct Gif` of src/src/main.rs. -/
structure Gif where
  version : GifVersion
  lsd : LogicalScreenDescriptor
  global_color_table : Option (List Color)
deriving DecidableEq

/-- Outcome of running a piece of Rust code that may return a value,
return an error, or panic. -/
inductive ROutcome (α : Type) where
  | ok : α → ROutcome α
  | err : GifError → ROutcome α
  | panicked : ROutcome α
deriving DecidableEq

/-- A UTF-8 continuation byte (0x80-0xBF). -/
def isCont (b : Nat) : Bool := 0x80 ≤ b && b ≤ 0xBF

/-- Validity of a byte sequence as UTF-8, exactly as checked by Rust
`str::from_utf8` (RFC 3629: no surrogates, no overlong forms, max U+10FFFF). -/
def utf8Valid : List Nat → Bool
  | [] => true
  | b :: rest =>
    if b ≤ 0x7F then utf8Valid rest
    else if 0xC2 ≤ b && b ≤ 0xDF then
      match rest with
      | b2 :: r2 => isCont b2 && utf8Valid r2
      | [] => false
    else if b = 0xE0 then
      match rest with
      | b2 :: b3 :: r2 => (0xA0 ≤ b2 && b2 ≤ 0xBF) && isCont b3 && utf8Valid r2
      | _ => false
    else if 0xE1 ≤ b && b ≤ 0xEC then
      match rest with
      | b2 :: b3 :: r2 => isCont b2 && isCont b3 && utf8Valid r2
      | _ => false
    else if b = 0xED then
      match rest with
      | b2 :: b3 :: r2 => (0x80 ≤ b2 && b2 ≤ 0x9F) && isCont b3 && utf8Valid r2
      | _ => false
    else if 0xEE ≤ b && b ≤ 0xEF then
      match rest with
      | b2 :: b3 :: r2 => isCont b2 && isCont b3 && utf8Valid r2
      | _ => false
    else if b = 0xF0 then
      match rest with
      | b2 :: b3 :: b4 :: r2 =>
        (0x90 ≤ b2 && b2 ≤ 0xBF) && isCont b3 && isCont b4 && utf8Valid r2
      | _ => false
    else if 0xF1 ≤ b && b ≤ 0xF3 then
      match rest with
      | b2 :: b3 :: b4 :: r2 => isCont b2 && isCont b3 && isCont b4 && utf8Valid r2
      | _ => false
    else if b = 0xF4 then
      match rest with
      | b2 :: b3 :: b4 :: r2 =>
        (0x80 ≤ b2 && b2 ≤ 0x8F) && isCont b3 && isCont b4 && utf8Valid r2
      | _ => false
    else false

/-- The ASCII bytes of the string literal GIF. -/
def gifSig : List Nat := [0x47, 0x49, 0x46]

/-- The ASCII bytes of the string literal 87a. -/
def v87Bytes : List Nat := [0x38, 0x37, 0x61]

/-- The ASCII bytes of the string literal 89a. -/
def v89Bytes : List Nat := [0x38, 0x39, 0x61]

/-- `Gif::parse_version` (src/src/main.rs lines 91-102).
`str::from_utf8(..).unwrap()` panics on invalid UTF-8; comparing the decoded
string with an ASCII literal is byte-for-byte comparison of the slice with
the literal's bytes. The second slice is only decoded when the signature
matched, as in the source. -/
def parse_version (bytes : List Nat) : ROutcome GifVersion :=
  if utf8Valid (bytes.take 3) = false then .panicked
  else if bytes.take 3 ≠ gifSig then .err .InvalidGifFile
  else if utf8Valid ((bytes.drop 3).take 3) = false then .panicked
  else if (bytes.drop 3).take 3 = v87Bytes then .ok .V87a
  else if (bytes.drop 3).take 3 = v89Bytes then .ok .V89a
  else .err (.UnsupportedVersion ((bytes.drop 3).take 3))

/-- `Gif::parse_logical_screen_descriptor` (src/src/main.rs lines 105-134).
Every Rust `u8`/`u16` operation that could wrap is wrapped explicitly.
The source function's `Result` return is always `Ok`. -/
def parse_logical_screen_descriptor (bytes : List Nat) :
    Except GifError LogicalScreenDescriptor :=
  let width := u16 (u16 ((u16 (bytes.getD 1 0 * 1)) <<< 8) + bytes.getD 0 0)
  let height := u16 (u16 ((u16 (bytes.getD 3 0 * 1)) <<< 8) + bytes.getD 2 0)
  let packed_fields := bytes.getD 4 0
  let has_global_color_table := packed_fields &&& 0b10000000 == 0b10000000
  let is_global_color_table_sorted := packed_fields &&& 0b00001000 == 0b00001000
  let color_resolution := u8 ((bytes.getD 4 0 &&& 0b01110000) + 1)
  let global_color_table_size :=
    u8 (3 * u8 ((u8 ((bytes.getD 4 0 &&& 0b00000111) + 1)) ^ 2))
  let background_color_index :=
    if has_global_color_table then some (bytes.getD 5 0) else none
  let pixel_aspect_ratio := bytes.getD 6 0
  .ok {
    width := width
    height := height
    has_global_color_table := has_global_color_table
    color_resolution := color_resolution
    is_global_color_table_sorted := is_global_color_table_sorted
    background_color_index := background_color_index
    global_color_table_size := global_color_table_size
    pixel_aspect_ratio := pixel_aspect_ratio
  }

/-- The `while i < table.len()` loop of `Gif::parse_global_color_table`
(src/src/main.rs lines 136-148). Indexing `table[i + 1]` / `table[i + 2]`
past the end is a Rust panic, modelled as `none`. -/
def gctLoop (table : List Nat) (i : Nat) (acc : List Color) :
    Option (List Color) :=
  if h : i < table.length then
    match table[i]?, table[i + 1]?, table[i + 2]? with
    | some r, some g, some b => gctLoop table (i + 3) (acc ++ [⟨r, g, b⟩])
    | _, _, _ => none
  else some acc
termination_by table.length - i
decreasing_by omega

/-- `Gif::parse_global_color_table` (src/src/main.rs lines 136-148). -/
def parse_global_color_table (table : List Nat) : Option (List Color) :=
  gctLoop table 0 []

/-- One `f.read(&mut buffer)` with `buffer = [0; k]` (or `vec![0; k]`) over
an in-memory byte source: returns the length-`k` buffer (read bytes then
zero padding) and the remaining source. -/
def readStep (k : Nat) (src : List Nat) : List Nat × List Nat :=
  (src.take k ++ List.replicate (k - src.length) 0, src.drop k)

/-- The conditional global-color-table stage of `Gif::from_file`
(src/src/main.rs lines 71-78): when the LSD flag is set, read
`global_color_table_size` bytes and parse them; otherwise do nothing. -/
def gct_stage (lsd : LogicalScreenDescriptor) (src : List Nat) :
    ROutcome (Option (List Color)) × List Nat :=
  if lsd.has_global_color_table then
    match parse_global_color_table (readStep lsd.global_color_table_size src).1 with
    | some colors => (.ok (some colors), (readStep lsd.global_color_table_size src).2)
    | none => (.panicked, (readStep lsd.global_color_table_size src).2)
  else (.ok none, src)

/-- `Gif::from_file` (src/src/main.rs lines 59-89) over an in-memory byte
source. Returns the outcome paired with the bytes left in the source. The
final `f.read_to_end` of the source (the `TODO: remove` block) consumes
everything remaining. -/
def from_file (src : List Nat) : ROutcome Gif × List Nat :=
  let s1 := (readStep 6 src).2
  match parse_version (readStep 6 src).1 with
  | .panicked => (.panicked, s1)
  | .err e => (.err e, s1)
  | .ok version =>
    let s2 := (readStep 7 s1).2
    match parse_logical_screen_descriptor (readStep 7 s1).1 with
    | .error e => (.err e, s2)
    | .ok lsd =>
      match (gct_stage lsd s2).1 with
      | .panicked => (.panicked, (gct_stage lsd s2).2)
      | .err e => (.err e, (gct_stage lsd s2).2)
      | .ok table =>
        (.ok { version := version, lsd := lsd, global_color_table := table }, [])

/-- The color-resolution derivation as the specification states it:
`((packed & 0x70) >> 4) + 1`. Stated from the spec for comparison with the
code's derivation. -/
def spec_color_resolution (packed : Nat) : Nat := ((packed &&& 0x70) >>> 4) + 1

/-- The colors obtained from `m` consecutive byte triples of `table`
starting at index `i`. Characterizes what the color-table loop builds. -/
def colorsFrom (table : List Nat) : Nat → Nat → List Color
  | _, 0 => []
  | i, m + 1 =>
    ⟨table.getD i 0, table.getD (i + 1) 0, table.getD (i + 2) 0⟩ ::
      colorsFrom table (i + 3) m

/-- In-bounds optional indexing agrees with default-valued indexing. -/
theorem getElem?_eq_some_getD (l : List Nat) (i : Nat) (h : i < l.length) :
    l[i]? = some (l.getD i 0) := by
  simp [List.getD, List.getElem?_eq_getElem, h]

/-- When the remaining byte count is an exact number of triples, the
color-table loop succeeds and yields exactly those triples. -/
theorem gctLoop_complete (table : List Nat) :
    ∀ (m i : Nat) (acc : List Color), table.length = i + 3 * m →
      gctLoop table i acc = some (acc ++ colorsFrom table i m) := by
  intro m
  induction m with
  | zero =>
    intro i acc h
    rw [gctLoop]
    simp [colorsFrom, h]
  | succ m ih =>
    intro i acc h
    have h0 : i < table.length := by omega
    have h1 : i + 1 < table.length := by omega
    have h2 : i + 2 < table.length := by omega
    rw [gctLoop]
    rw [getElem?_eq_some_getD table i h0, getElem?_eq_some_getD table (i + 1) h1,
        getElem?_eq_some_getD table (i + 2) h2]
    simp only [h0, dif_pos]
    rw [ih (i + 3) _ (by omega)]
    simp [colorsFrom]

/-- The triple list built from `m` triples has length `m`. -/
theorem colorsFrom_length (table : List Nat) :
    ∀ (m i : Nat), (colorsFrom table i m).length = m := by
  intro m
  induction m with
  | zero => intro i; simp [colorsFrom]
  | succ m ih => intro i; simp [colorsFrom, ih]

/-- Entry `j` of the triple list is the `j`-th consecutive byte triple. -/
theorem colorsFrom_getElem? (table : List Nat) :
    ∀ (m j i : Nat), j < m →
      (colorsFrom table i m)[j]? =
        some ⟨table.getD (i + 3 * j) 0, table.getD (i + 3 * j + 1) 0,
              table.getD (i + 3 * j + 2) 0⟩ := by
  intro m
  induction m with
  | zero => intro j i h; omega
  | succ m ih =>
    intro j i h
    cases j with
    | zero => simp [colorsFrom]
    | succ j =>
      have := ih j (i + 3) (by omega)
      simp only [colorsFrom, List.getElem?_cons_succ]
      rw [this]
      have e1 : i + 3 + 3 * j = i + 3 * (j + 1) := by ring
      rw [e1]

/-- Bitwise or of a byte with a value shifted past it is their sum. -/
theorem lor_shl_eq_add {n : Nat} (a b : Nat) (h : a < 2 ^ n) :
    a ||| (b <<< n) = b <<< n + a := by
  apply Nat.eq_of_testBit_eq
  intro i
  rw [Nat.testBit_lor, Nat.testBit_shiftLeft, Nat.shiftLeft_eq,
      Nat.mul_comm b (2 ^ n), Nat.testBit_mul_pow_two_add b h i]
  by_cases hi : i < n
  · have hge : ¬ (i ≥ n) := by omega
    simp [hi, hge]
  · have ha : a.testBit i = false :=
      Nat.testBit_lt_two_pow
        (lt_of_lt_of_le h (Nat.pow_le_pow_right (by norm_num) (by omega)))
    simp [hi, ha, Nat.not_lt.mp hi]

/-- The wrapped u8 color-resolution computation of the source never wraps. -/
theorem u8_color_res (p : Nat) :
    u8 ((p &&& 0x70) + 1) = (p &&& 0x70) + 1 := by
  have h70 : p &&& 0x70 ≤ 0x70 := Nat.and_le_right
  exact Nat.mod_eq_of_lt (by omega)

/-- The wrapped u8 color-table-size computation of the source never wraps. -/
theorem u8_gct_size (p : Nat) :
    u8 (3 * u8 ((u8 ((p &&& 0x07) + 1)) ^ 2)) = 3 * ((p &&& 0x07) + 1) ^ 2 := by
  have h7 : p &&& 0x07 ≤ 7 := Nat.and_le_right
  have e1 : u8 ((p &&& 0x07) + 1) = (p &&& 0x07) + 1 := Nat.mod_eq_of_lt (by omega)
  rw [e1]
  have hsq : ((p &&& 0x07) + 1) ^ 2 ≤ 64 := by
    calc ((p &&& 0x07) + 1) ^ 2 ≤ 8 ^ 2 := Nat.pow_le_pow_left (by omega) 2
      _ = 64 := by norm_num
  have e2 : u8 (((p &&& 0x07) + 1) ^ 2) = ((p &&& 0x07) + 1) ^ 2 :=
    Nat.mod_eq_of_lt (by omega)
  rw [e2]
  exact Nat.mod_eq_of_lt (by omega)

/-- Inversion of a successful LSD parse into the explicit field values. -/
theorem lsd_of_ok (b : List Nat) (lsd : LogicalScreenDescriptor)
    (h : parse_logical_screen_descriptor b = .ok lsd) :
    lsd = {
      width := u16 (u16 ((u16 (b.getD 1 0 * 1)) <<< 8) + b.getD 0 0)
      height := u16 (u16 ((u16 (b.getD 3 0 * 1)) <<< 8) + b.getD 2 0)
      has_global_color_table := b.getD 4 0 &&& 0b10000000 == 0b10000000
      color_resolution := u8 ((b.getD 4 0 &&& 0b01110000) + 1)
      is_global_color_table_sorted := b.getD 4 0 &&& 0b00001000 == 0b00001000
      background_color_index :=
        if b.getD 4 0 &&& 0b10000000 == 0b10000000 then some (b.getD 5 0) else none
      global_color_table_size :=
        u8 (3 * u8 ((u8 ((b.getD 4 0 &&& 0b00000111) + 1)) ^ 2))
      pixel_aspect_ratio := b.getD 6 0 } := by
  simp only [parse_logical_screen_descriptor, Except.ok.injEq] at h
  exact h.symm

/-- The 16-bit little-endian assembly of the source, written with explicit
u16 wrap-around, equals the or-of-shifted-bytes form, for byte inputs. -/
theorem le16_formula (x0 x1 : Nat) (h0 : x0 < 256) (h1 : x1 < 256) :
    u16 (u16 ((u16 (x1 * 1)) <<< 8) + x0) = x0 ||| (x1 <<< 8) := by
  have eR : x0 ||| (x1 <<< 8) = x1 * 256 + x0 := by
    rw [lor_shl_eq_add x0 x1 (show x0 < 2 ^ 8 by omega), Nat.shiftLeft_eq]
  rw [eR]
  have e1 : u16 (x1 * 1) = x1 := by
    rw [Nat.mul_one]; exact Nat.mod_eq_of_lt (by omega)
  rw [e1]
  have hs : x1 <<< 8 = x1 * 256 := by rw [Nat.shiftLeft_eq]
  rw [hs]
  have e2 : u16 (x1 * 256) = x1 * 256 := Nat.mod_eq_of_lt (by omega)
  rw [e2]
  exact Nat.mod_eq_of_lt (by omega)

/-- The LSD decoded from a block of seven zero bytes. -/
def lsdZero : LogicalScreenDescriptor :=
  ⟨0, 0, false, 1, false, none, 3, 0⟩

/-- A source with a valid GIF89a signature, an all-zero LSD block
(no global color table), and one trailing byte 42. -/
def c2src : List Nat :=
  [0x47, 0x49, 0x46, 0x38, 0x39, 0x61, 0, 0, 0, 0, 0, 0, 0, 42]

/-- The Gif value decoded from a GIF89a signature and an all-zero LSD. -/
def gifZero89 : Gif := ⟨.V89a, lsdZero, none⟩

/-- Claim C1: the claim states that the decoded color-resolution equals
`((packed & 0x70) >> 4) + 1`. The code computes `(packed & 0x70) + 1`
without the right shift: at packed byte 0x10 it stores 17 where the claimed
formula gives 2. -/
theorem c1_color_resolution_divergence :
    parse_logical_screen_descriptor [0, 0, 0, 0, 0x10, 0, 0] =
      .ok ⟨0, 0, false, 17, false, none, 3, 0⟩
    ∧ spec_color_resolution 0x10 = 2
    ∧ (17 : Nat) ≠ 2 :=
  ⟨rfl, rfl, by decide⟩

/-- Claim C2: the claim states that parsing consumes exactly the header
region and never reads trailing bytes. The `read_to_end` call in
`Gif::from_file` (the TODO-remove block) consumes the whole source: on a
13-byte header followed by one trailing byte 42, the source is left empty
rather than positioned at the trailing byte. -/
theorem c2_trailing_bytes_consumed :
    from_file c2src = (.ok gifZero89, [])
    ∧ (from_file c2src).2 ≠ [42] :=
  ⟨rfl, by decide⟩

/-- Claim C3: the claim states that non-UTF-8 bytes in the signature or
version region yield the same format-invalidity error as a malformed
signature. The code calls `str::from_utf8(..).unwrap()`, which panics on
such input (byte 0xFF in either region), instead of returning
`InvalidGifFile`. -/
theorem c3_invalid_utf8_panics :
    parse_version [0xFF, 0x49, 0x46, 0x38, 0x37, 0x61] = .panicked
    ∧ parse_version [0x47, 0x49, 0x46, 0xFF, 0xFF, 0xFF] = .panicked
    ∧ parse_version [0xFF, 0x49, 0x46, 0x38, 0x37, 0x61] ≠ .err .InvalidGifFile :=
  ⟨rfl, rfl, by decide⟩

/-- Claim C4: the claim states that a color-table byte count not divisible
by 3 is rejected with a dedicated InvalidFormat-style error and no
out-of-bounds access occurs. The code's `while` loop reads `table[i + 1]`
and `table[i + 2]` unconditionally, so on lengths 1 and 2 mod 3 it indexes
out of bounds and panics (`none` here); its return type has no error case
at all. -/
theorem c4_gct_out_of_bounds_panic :
    parse_global_color_table [1] = none
    ∧ parse_global_color_table [1, 2] = none
    ∧ parse_global_color_table [1, 2, 3, 4] = none := by
  refine ⟨?_, ?_, ?_⟩ <;> simp [parse_global_color_table, gctLoop]

/-- Claim C5: the claim states that a short or empty read makes the parse
fail with the IoFailure error rather than proceeding on a partially/zero
filled buffer. The code ignores the byte count returned by `read`: on an
empty source it parses the zero-filled buffer and reports `InvalidGifFile`,
and on a source holding only the 6-byte signature GIF89a it parses a
zero-filled LSD block and succeeds. -/
theorem c5_short_read_not_io_error :
    from_file [] = (.err .InvalidGifFile, [])
    ∧ from_file [0x47, 0x49, 0x46, 0x38, 0x39, 0x61] = (.ok gifZero89, [])
    ∧ (from_file []).1 ≠ .err .Io
    ∧ (from_file [0x47, 0x49, 0x46, 0x38, 0x39, 0x61]).1 ≠ .err .Io :=
  ⟨rfl, rfl, by decide, by decide⟩

/-- Claim C6 counterexample: the claim says that whenever bytes 0..3 are
not GIF the decoder fails with InvalidFormat regardless of the remaining
bytes; but at [0xFF,0,0,0,0,0] (signature region not UTF-8) the code
panics instead. -/
theorem c6_counterexample :
    parse_version [0xFF, 0, 0, 0, 0, 0] = .panicked
    ∧ parse_version [0xFF, 0, 0, 0, 0, 0] ≠ .err .InvalidGifFile :=
  ⟨rfl, by decide⟩

/-- Claim C6 (amended): for every 6-byte input whose signature region is
valid UTF-8, version decoding fails with InvalidFormat when bytes 0..3 are
not GIF, regardless of the remaining bytes; and when bytes 0..3 are GIF and
the version region is also valid UTF-8, it returns V87a or V89a exactly for
the texts 87a and 89a, and fails with UnsupportedVersion carrying exactly
the 3-byte version text otherwise. -/
theorem c6_version_taxonomy (b : List Nat) (hlen : b.length = 6)
    (h3 : utf8Valid (b.take 3) = true) :
    (b.take 3 ≠ gifSig → parse_version b = .err .InvalidGifFile)
    ∧ (b.take 3 = gifSig → utf8Valid ((b.drop 3).take 3) = true →
        ((parse_version b = .ok .V87a ↔ (b.drop 3).take 3 = v87Bytes)
          ∧ (parse_version b = .ok .V89a ↔ (b.drop 3).take 3 = v89Bytes)
          ∧ ((b.drop 3).take 3 ≠ v87Bytes → (b.drop 3).take 3 ≠ v89Bytes →
              parse_version b = .err (.UnsupportedVersion ((b.drop 3).take 3))))) := by
  constructor
  · intro hsig
    simp +decide [parse_version, h3, hsig]
  · intro hsig h6
    by_cases h87 : (b.drop 3).take 3 = v87Bytes
    · have h89 : (b.drop 3).take 3 ≠ v89Bytes := by rw [h87]; decide
      refine ⟨?_, ?_, ?_⟩
      · simp +decide [parse_version, h3, hsig, h6, h87]
      · simp +decide [parse_version, h3, hsig, h6, h87, h89]
      · intro hc _
        exact absurd h87 hc
    · by_cases h89 : (b.drop 3).take 3 = v89Bytes
      · refine ⟨?_, ?_, ?_⟩
        · simp +decide [parse_version, h3, hsig, h6, h87, h89]
        · simp +decide [parse_version, h3, hsig, h6, h89]
        · intro _ hc
          exact absurd h89 hc
      · refine ⟨?_, ?_, ?_⟩
        · simp +decide [parse_version, h3, hsig, h6, h87, h89]
        · simp +decide [parse_version, h3, hsig, h6, h87, h89]
        · intro _ _
          simp +decide [parse_version, h3, hsig, h6, h87, h89]

/-- Claim C6 witness: the amended taxonomy evaluated on the concrete input
GIF87a yields version V87a. -/
theorem c6_version_taxonomy_witness :
    parse_version [0x47, 0x49, 0x46, 0x38, 0x37, 0x61] = .ok .V87a :=
  ((c6_version_taxonomy [0x47, 0x49, 0x46, 0x38, 0x37, 0x61]
      (by decide) (by decide)).2 (by decide) (by decide)).1.mpr (by decide)

/-- Claim C9: the decoded width and height are the little-endian 16-bit
values assembled from bytes 0/1 and 2/3 of the LSD block. -/
theorem c9_dimensions_little_endian (b : List Nat) (hlen : b.length = 7)
    (hby : ∀ x ∈ b, x < 256) (lsd : LogicalScreenDescriptor)
    (h : parse_logical_screen_descriptor b = .ok lsd) :
    lsd.width = b.getD 0 0 ||| (b.getD 1 0 <<< 8)
    ∧ lsd.height = b.getD 2 0 ||| (b.getD 3 0 <<< 8) := by
  have hb : ∀ i, i < 7 → b.getD i 0 < 256 := by
    intro i hi
    have hi2 : i < b.length := by omega
    rw [List.getD_eq_getElem b 0 hi2]
    exact hby _ (List.getElem_mem hi2)
  rw [lsd_of_ok b lsd h]
  exact ⟨le16_formula _ _ (hb 0 (by omega)) (hb 1 (by omega)),
         le16_formula _ _ (hb 2 (by omega)) (hb 3 (by omega))⟩

/-- The LSD decoded from the block [10,0,10,0,0,0,0]. -/
def c9lsd : LogicalScreenDescriptor := ⟨10, 10, false, 1, false, none, 3, 0⟩

/-- Claim C9 witness: the little-endian formula evaluated on the concrete
LSD block [10,0,10,0,0,0,0] (width = height = 10). -/
theorem c9_dimensions_witness :
    c9lsd.width = [10, 0, 10, 0, 0, 0, 0].getD 0 0
        ||| ([10, 0, 10, 0, 0, 0, 0].getD 1 0 <<< 8)
    ∧ c9lsd.height = [10, 0, 10, 0, 0, 0, 0].getD 2 0
        ||| ([10, 0, 10, 0, 0, 0, 0].getD 3 0 <<< 8) :=
  c9_dimensions_little_endian [10, 0, 10, 0, 0, 0, 0] (by decide) (by decide)
    c9lsd rfl

/-- Claim C10: the u8 arithmetic deriving color resolution and table size
never wraps: the stored values are exactly `(packed & 0x70) + 1 ≤ 0x71` and
`3 * ((packed & 7) + 1)^2 ≤ 192`, for every packed byte. -/
theorem c10_no_u8_overflow (b : List Nat) (lsd : LogicalScreenDescriptor)
    (h : parse_logical_screen_descriptor b = .ok lsd) :
    lsd.color_resolution = (b.getD 4 0 &&& 0x70) + 1
    ∧ lsd.color_resolution ≤ 0x71
    ∧ lsd.global_color_table_size = 3 * ((b.getD 4 0 &&& 0x07) + 1) ^ 2
    ∧ lsd.global_color_table_size ≤ 192 := by
  rw [lsd_of_ok b lsd h]
  have h70 : b.getD 4 0 &&& 0x70 ≤ 0x70 := Nat.and_le_right
  have h7 : b.getD 4 0 &&& 0x07 ≤ 7 := Nat.and_le_right
  have hsq : ((b.getD 4 0 &&& 0x07) + 1) ^ 2 ≤ 64 := by
    calc ((b.getD 4 0 &&& 0x07) + 1) ^ 2 ≤ 8 ^ 2 := Nat.pow_le_pow_left (by omega) 2
      _ = 64 := by norm_num
  refine ⟨u8_color_res _, ?_, u8_gct_size _, ?_⟩
  · show u8 ((b.getD 4 0 &&& 0x70) + 1) ≤ 0x71
    rw [u8_color_res]
    omega
  · show u8 (3 * u8 ((u8 ((b.getD 4 0 &&& 0x07) + 1)) ^ 2)) ≤ 192
    rw [u8_gct_size]
    omega

/-- The LSD decoded from the block [0,0,0,0,255,0,0]. -/
def c10lsd : LogicalScreenDescriptor := ⟨0, 0, true, 113, true, some 0, 192, 0⟩

/-- Claim C10 witness: the no-overflow statement evaluated at the maximal
packed byte 255 (color resolution 113 = 0x71, table size 192). -/
theorem c10_no_u8_overflow_witness :
    c10lsd.color_resolution = ([0, 0, 0, 0, 255, 0, 0].getD 4 0 &&& 0x70) + 1
    ∧ c10lsd.color_resolution ≤ 0x71
    ∧ c10lsd.global_color_table_size =
        3 * (([0, 0, 0, 0, 255, 0, 0].getD 4 0 &&& 0x07) + 1) ^ 2
    ∧ c10lsd.global_color_table_size ≤ 192 :=
  c10_no_u8_overflow [0, 0, 0, 0, 255, 0, 0] c10lsd rfl

/-- Claim C7: when the packed byte's size field is k, the derived table
size is 3(k+1)^2, and the color-table decoder fed a byte run of exactly
that length yields exactly (k+1)^2 colors, each built from one consecutive
red-green-blue byte triple in input order. -/
theorem c7_size_and_table (bytes : List Nat) (k : Nat)
    (hk : bytes.getD 4 0 &&& 0x07 = k) (lsd : LogicalScreenDescriptor)
    (h : parse_logical_screen_descriptor bytes = .ok lsd)
    (table : List Nat) (hlen : table.length = 3 * (k + 1) ^ 2) :
    lsd.global_color_table_size = 3 * (k + 1) ^ 2
    ∧ ∃ cs, parse_global_color_table table = some cs
        ∧ cs.length = (k + 1) ^ 2
        ∧ ∀ j, j < (k + 1) ^ 2 →
            cs[j]? = some ⟨table.getD (3 * j) 0, table.getD (3 * j + 1) 0,
                            table.getD (3 * j + 2) 0⟩ := by
  constructor
  · rw [lsd_of_ok bytes lsd h]
    show u8 (3 * u8 ((u8 ((bytes.getD 4 0 &&& 0x07) + 1)) ^ 2)) = 3 * (k + 1) ^ 2
    rw [u8_gct_size, hk]
  · refine ⟨colorsFrom table 0 ((k + 1) ^ 2), ?_, colorsFrom_length table _ 0, ?_⟩
    · unfold parse_global_color_table
      rw [gctLoop_complete table ((k + 1) ^ 2) 0 [] (by omega)]
      simp
    · intro j hj
      have := colorsFrom_getElem? table ((k + 1) ^ 2) j 0 hj
      simpa using this

/-- The LSD decoded from the block [0,0,0,0,0x80,0,0]. -/
def c7lsd : LogicalScreenDescriptor := ⟨0, 0, true, 1, false, some 0, 3, 0⟩

/-- Claim C7 witness: size field 0 gives table size 3, and the decoder fed
the 3 bytes [9,8,7] yields the single color (9,8,7). -/
theorem c7_size_and_table_witness :
    c7lsd.global_color_table_size = 3 * (0 + 1) ^ 2
    ∧ ∃ cs, parse_global_color_table [9, 8, 7] = some cs
        ∧ cs.length = (0 + 1) ^ 2
        ∧ ∀ j, j < (0 + 1) ^ 2 →
            cs[j]? = some ⟨[9, 8, 7].getD (3 * j) 0, [9, 8, 7].getD (3 * j + 1) 0,
                            [9, 8, 7].getD (3 * j + 2) 0⟩ :=
  c7_size_and_table [0, 0, 0, 0, 0x80, 0, 0] 0 (by decide) c7lsd rfl
    [9, 8, 7] (by decide)

/-- Claim C8: every Gif produced by a successful parse has a color table
exactly when the LSD flag is set, its background-color index is the LSD
block's byte 5 exactly when the flag is set and none otherwise, and when
the flag is clear the color-table stage does not touch the source. -/
theorem c8_invariants (src : List Nat) (g : Gif) (rest : List Nat)
    (h : from_file src = (.ok g, rest)) :
    g.global_color_table.isSome = g.lsd.has_global_color_table
    ∧ g.lsd.background_color_index =
        (if g.lsd.has_global_color_table
          then some ((readStep 7 (readStep 6 src).2).1.getD 5 0) else none)
    ∧ (∀ (lsd : LogicalScreenDescriptor) (s : List Nat),
        lsd.has_global_color_table = false → gct_stage lsd s = (.ok none, s)) := by
  have hskip : ∀ (lsd : LogicalScreenDescriptor) (s : List Nat),
      lsd.has_global_color_table = false → gct_stage lsd s = (.ok none, s) := by
    intro lsd s hf
    simp [gct_stage, hf]
  suffices hmain : g.global_color_table.isSome = g.lsd.has_global_color_table
      ∧ g.lsd.background_color_index =
          (if g.lsd.has_global_color_table
            then some ((readStep 7 (readStep 6 src).2).1.getD 5 0) else none) by
    exact ⟨hmain.1, hmain.2, hskip⟩
  simp only [from_file] at h
  split at h
  · simp at h
  · simp at h
  · rename_i version hv
    split at h
    · rename_i e heq
      simp [parse_logical_screen_descriptor] at heq
    · rename_i lsd heq
      split at h
      · simp at h
      · simp at h
      · rename_i table hg
        simp only [Prod.mk.injEq, ROutcome.ok.injEq] at h
        obtain ⟨h1, h2⟩ := h
        subst h1
        constructor
        · by_cases hflag : lsd.has_global_color_table
          · simp only [gct_stage, hflag, if_true] at hg
            split at hg
            · rename_i colors hc
              simp only [ROutcome.ok.injEq] at hg
              rw [← hg]
              simp [hflag]
            · simp at hg
          · rw [hskip lsd _ (by simpa using hflag)] at hg
            simp only [ROutcome.ok.injEq] at hg
            rw [← hg]
            simp [hflag]
        · rw [lsd_of_ok _ lsd heq]

/-- The Gif decoded from a GIF87a signature and an all-zero LSD. -/
def gifZero87 : Gif := ⟨.V87a, lsdZero, none⟩

/-- A source holding a GIF87a signature and an all-zero LSD block. -/
def src87 : List Nat := [0x47, 0x49, 0x46, 0x38, 0x37, 0x61, 0, 0, 0, 0, 0, 0, 0]

/-- Claim C8 witness: the invariants evaluated on the concrete parse of a
GIF87a header whose LSD has no global color table. -/
theorem c8_invariants_witness :
    gifZero87.global_color_table.isSome = gifZero87.lsd.has_global_color_table
    ∧ gifZero87.lsd.background_color_index =
        (if gifZero87.lsd.has_global_color_table
          then some ((readStep 7 (readStep 6 src87).2).1.getD 5 0) else none)
    ∧ (∀ (lsd : LogicalScreenDescriptor) (s : List Nat),
        lsd.has_global_color_table = false → gct_stage lsd s = (.ok none, s)) :=
  c8_invariants src87 gifZero87 [] rfl

end GifDecoder
